import Mathlib

/-!
Shallow embedding of the `printer-connector` agent (Go) for checking its
natural-language specification.  Pure logic is translated function-by-function
from the source; I/O (HTTP requests to the cloud and to Moonraker, file system
operations) is modelled by explicit environments, effect traces and an
association-list file system.  Machine integers are modelled by `Int`/`Nat`
(no arithmetic in the translated code can overflow on the inputs considered),
`float64` jitter by `ℚ`, and fallible operations by `Option`/`Except`.
-/

namespace PrinterConnector

/-- JSON-like values, used for command params, result maps and config files. -/
inductive JVal where
  | str (s : String)
  | num (n : Int)
  | bool (b : Bool)
  | obj (kvs : List (String × JVal))
  | arr (vs : List JVal)
  | null
deriving Repr

/-- A Go `map[string]any` restricted to JSON values, as an association list.
Key update overwrites in place (Go map assignment). -/
abbrev Rmap := List (String × JVal)

/-- Go `m[k] = v` on a `map[string]any`: replace the binding if present,
otherwise append. -/
def rset (m : Rmap) (k : String) (v : JVal) : Rmap :=
  if (m.lookup k).isSome then m.map (fun kv => if kv.1 = k then (k, v) else kv)
  else m ++ [(k, v)]

/-- Lookup in a result map. -/
def rget (m : Rmap) (k : String) : Option JVal := m.lookup k

/-! ## Config data model (`internal/config/config.go`) -/

/-- `config.MoonrakerPrinter`. -/
structure MoonrakerPrinter where
  printerID : Int
  name : String
  baseURL : String
deriving Repr, DecidableEq

/-- `config.Config`.  Field order and JSON keys follow the Go struct tags. -/
structure Config where
  cloudURL : String
  pairingToken : String
  connectorID : String
  connectorSecret : String
  siteName : String
  pollCommandsSeconds : Int
  pushSnapshotsSeconds : Int
  heartbeatSeconds : Int
  stateDir : String
  moonraker : List MoonrakerPrinter
deriving Repr, DecidableEq

/-- JSON encoding of one `MoonrakerPrinter` (no `omitempty` on its fields). -/
def serializeMoonraker (p : MoonrakerPrinter) : List (String × JVal) :=
  [("printer_id", JVal.num p.printerID),
   ("name", JVal.str p.name),
   ("base_url", JVal.str p.baseURL)]

/-- JSON encoding of a `Config` as produced by `json.MarshalIndent`: fields
tagged `omitempty` are dropped at their zero value. -/
def serializeConfig (c : Config) : List (String × JVal) :=
  [("cloud_url", JVal.str c.cloudURL)]
  ++ (if c.pairingToken = "" then [] else [("pairing_token", JVal.str c.pairingToken)])
  ++ (if c.connectorID = "" then [] else [("connector_id", JVal.str c.connectorID)])
  ++ (if c.connectorSecret = "" then [] else [("connector_secret", JVal.str c.connectorSecret)])
  ++ (if c.siteName = "" then [] else [("site_name", JVal.str c.siteName)])
  ++ (if c.pollCommandsSeconds = 0 then [] else [("poll_commands_seconds", JVal.num c.pollCommandsSeconds)])
  ++ (if c.pushSnapshotsSeconds = 0 then [] else [("push_snapshots_seconds", JVal.num c.pushSnapshotsSeconds)])
  ++ (if c.heartbeatSeconds = 0 then [] else [("heartbeat_seconds", JVal.num c.heartbeatSeconds)])
  ++ (if c.stateDir = "" then [] else [("state_dir", JVal.str c.stateDir)])
  ++ [("moonraker", JVal.arr (c.moonraker.map (fun p => JVal.obj (serializeMoonraker p))))]

/-- `json.Unmarshal` of a string field: absent key decodes to the zero value. -/
def jGetStr (kvs : List (String × JVal)) (k : String) : String :=
  match kvs.lookup k with
  | some (JVal.str s) => s
  | _ => ""

/-- `json.Unmarshal` of an int field: absent key decodes to the zero value. -/
def jGetInt (kvs : List (String × JVal)) (k : String) : Int :=
  match kvs.lookup k with
  | some (JVal.num n) => n
  | _ => 0

/-- Decoding one element of the `moonraker` array. -/
def parseMoonraker (v : JVal) : MoonrakerPrinter :=
  match v with
  | JVal.obj kvs =>
    { printerID := jGetInt kvs "printer_id"
      name := jGetStr kvs "name"
      baseURL := jGetStr kvs "base_url" }
  | _ => { printerID := 0, name := "", baseURL := "" }

/-- `json.Unmarshal` of the whole config document. -/
def deserializeConfig (kvs : List (String × JVal)) : Config :=
  { cloudURL := jGetStr kvs "cloud_url"
    pairingToken := jGetStr kvs "pairing_token"
    connectorID := jGetStr kvs "connector_id"
    connectorSecret := jGetStr kvs "connector_secret"
    siteName := jGetStr kvs "site_name"
    pollCommandsSeconds := jGetInt kvs "poll_commands_seconds"
    pushSnapshotsSeconds := jGetInt kvs "push_snapshots_seconds"
    heartbeatSeconds := jGetInt kvs "heartbeat_seconds"
    stateDir := jGetStr kvs "state_dir"
    moonraker :=
      match kvs.lookup "moonraker" with
      | some (JVal.arr vs) => vs.map parseMoonraker
      | _ => [] }

/-- The default substitutions performed by `config.Load` after unmarshalling. -/
def applyDefaults (c : Config) : Config :=
  let c := if c.pollCommandsSeconds ≤ 0 then { c with pollCommandsSeconds := 3 } else c
  let c := if c.pushSnapshotsSeconds ≤ 0 then { c with pushSnapshotsSeconds := 30 } else c
  let c := if c.heartbeatSeconds ≤ 0 then { c with heartbeatSeconds := 10 } else c
  if c.stateDir = "" then { c with stateDir := "/var/lib/printer-connector" } else c

/-- `config.Load` with the on-disk bytes already parsed into a JSON object:
unmarshal the document, then apply defaults. -/
def loadFromJson (kvs : List (String × JVal)) : Config :=
  applyDefaults (deserializeConfig kvs)

/-- `strings.HasPrefix` / `String.startsWith`, over character lists so that
concrete instances evaluate inside the kernel. -/
def strStarts (s pre : String) : Bool := pre.data.isPrefixOf s.data

/-- `strings.HasSuffix` / `String.endsWith`. -/
def strEnds (s suf : String) : Bool := suf.data.reverse.isPrefixOf s.data.reverse

/-- `strings.ContainsRune` / `String.contains`. -/
def strHasChar (s : String) (c : Char) : Bool := s.data.contains c

/-- Scanner for two adjacent dots. -/
def hasDotDot : List Char → Bool
  | '.' :: '.' :: _ => true
  | _ :: rest => hasDotDot rest
  | [] => false

/-- `strings.Contains s ".."`. -/
def containsDotDot (s : String) : Bool :=
  hasDotDot s.data

/-- The per-printer part of `Config.Validate`, looping over `c.Moonraker`
while collecting the `seen` set of printer ids. -/
def validatePrinters (seen : List Int) : List MoonrakerPrinter → Except String Unit
  | [] => Except.ok ()
  | p :: rest =>
    if p.printerID ≤ 0 then
      Except.error "moonraker printer_id must be > 0"
    else if seen.contains p.printerID then
      Except.error ("duplicate moonraker printer_id: " ++ toString p.printerID)
    else if p.baseURL = "" then
      Except.error ("moonraker base_url required for printer_id " ++ toString p.printerID)
    else if !(strStarts p.baseURL "http://" || strStarts p.baseURL "https://") then
      Except.error ("moonraker base_url must start with http:// or https:// for printer_id "
        ++ toString p.printerID)
    else if containsDotDot p.baseURL then
      Except.error ("moonraker base_url must not contain dotdot for printer_id "
        ++ toString p.printerID)
    else validatePrinters (p.printerID :: seen) rest

/-- `Config.Validate`. -/
def validate (c : Config) : Except String Unit :=
  if c.cloudURL = "" then Except.error "cloud_url is required"
  else if !(strStarts c.cloudURL "http://" || strStarts c.cloudURL "https://") then
    Except.error "cloud_url must start with http:// or https://"
  else
    let hasPair : Bool := c.pairingToken ≠ ""
    let hasCreds : Bool := c.connectorID ≠ "" && c.connectorSecret ≠ ""
    if !hasPair && !hasCreds then
      Except.error "config must include either pairing_token OR connector_id + connector_secret"
    else if hasPair && hasCreds then
      Except.error "config should not include pairing_token once connector_id + connector_secret exist"
    else if c.moonraker = [] then
      Except.error "moonraker must include at least one printer entry"
    else validatePrinters [] c.moonraker

/-! ## File-system model and `config.SaveAtomic` -/

/-- A stored file: its content (the parsed JSON document it holds) and its
permission bits. -/
structure FileData where
  content : List (String × JVal)
  perm : Nat
deriving Repr

/-- A directory's files, as an association list from path to file data. -/
abbrev Fs := List (String × FileData)

/-- Read a file: the first binding for the path, if any. -/
def fsRead (fs : Fs) (p : String) : Option FileData :=
  (fs.find? (fun kv => kv.1 = p)).map (fun kv => kv.2)

/-- `os.WriteFile`: create or truncate the file at `p`. -/
def fsWrite (fs : Fs) (p : String) (d : FileData) : Fs :=
  (p, d) :: fs.filter (fun kv => kv.1 ≠ p)

/-- `os.Remove`. -/
def fsRemove (fs : Fs) (p : String) : Fs :=
  fs.filter (fun kv => kv.1 ≠ p)

/-- `os.Rename src dst`: atomically replace `dst` with `src`. -/
def fsRename (fs : Fs) (src dst : String) : Fs :=
  match fsRead fs src with
  | none => fs
  | some d => fsWrite (fsRemove fs src) dst d

/-- The state of `SaveAtomic` after the temp file is written but before the
rename — the point at which a crash is simulated.  Directory creation
(`os.MkdirAll`) does not change any file and is not modelled. -/
def saveAtomicPreRename (fs : Fs) (path : String) (cfg : Config) : Fs :=
  fsWrite fs (path ++ ".tmp") ⟨serializeConfig cfg, 0o600⟩

/-- `config.SaveAtomic`: write `path + ".tmp"` with mode 0600, then rename it
over `path`. -/
def saveAtomic (fs : Fs) (path : String) (cfg : Config) : Fs :=
  fsRename (saveAtomicPreRename fs path cfg) (path ++ ".tmp") path

/-! ## Permissive identifier decoding (`cloud.StringOrNumber.UnmarshalJSON`) -/

/-- Value of one hex digit, for a JSON unicode escape. -/
def hexDigitVal (c : Char) : Option Nat :=
  if ('0' ≤ c ∧ c ≤ '9') then some (c.toNat - 48)
  else if ('a' ≤ c ∧ c ≤ 'f') then some (c.toNat - 97 + 10)
  else if ('A' ≤ c ∧ c ≤ 'F') then some (c.toNat - 65 + 10)
  else none

/-- Body of `encoding/json`'s string decoder: scan the remaining characters
after the opening quote, handling the standard escapes.  Decoding fails on a
missing closing quote, an unknown escape, a raw control character, or text
after the closing quote (just as `json.Unmarshal` rejects trailing data).
Surrogate-pair recombination for adjacent unicode escapes is not modelled. -/
def jsonUnquoteAux : List Char → List Char → Option String
  | [], _ => none
  | c :: rest, acc =>
    if c = '"' then
      if rest.isEmpty then some (String.mk acc.reverse) else none
    else if c = '\\' then
      match rest with
      | 'u' :: h1 :: h2 :: h3 :: h4 :: rest2 =>
        match hexDigitVal h1, hexDigitVal h2, hexDigitVal h3, hexDigitVal h4 with
        | some a, some b, some cc, some d =>
          jsonUnquoteAux rest2 (Char.ofNat (((a * 16 + b) * 16 + cc) * 16 + d) :: acc)
        | _, _, _, _ => none
      | e :: rest2 =>
        if e = '"' then jsonUnquoteAux rest2 ('"' :: acc)
        else if e = '\\' then jsonUnquoteAux rest2 ('\\' :: acc)
        else if e = '/' then jsonUnquoteAux rest2 ('/' :: acc)
        else if e = 'b' then jsonUnquoteAux rest2 (Char.ofNat 8 :: acc)
        else if e = 'f' then jsonUnquoteAux rest2 (Char.ofNat 12 :: acc)
        else if e = 'n' then jsonUnquoteAux rest2 (Char.ofNat 10 :: acc)
        else if e = 'r' then jsonUnquoteAux rest2 (Char.ofNat 13 :: acc)
        else if e = 't' then jsonUnquoteAux rest2 (Char.ofNat 9 :: acc)
        else none
      | [] => none
    else if c.toNat < 32 then none
    else jsonUnquoteAux rest (c :: acc)

/-- `json.Unmarshal(b, &str)` for a string token `b`. -/
def jsonUnquote (b : String) : Option String :=
  match b.data with
  | '"' :: rest => jsonUnquoteAux rest []
  | _ => none

/-- `cloud.StringOrNumber.UnmarshalJSON`: empty or null input yields the empty
string; a token starting with a quote is decoded as a JSON string; anything
else is kept verbatim as its own text.  `none` models a returned error. -/
def unmarshalStringOrNumber (b : String) : Option String :=
  if b = "" ∨ b = "null" then some ""
  else if b.data.head? = some '"' then jsonUnquote b
  else some b

/-! ## Cloud client URL construction (`internal/cloud/client.go`) -/

/-- `net/url.shouldEscape` for `encodePathSegment` (ASCII byte `c`). -/
def shouldEscapeSeg (c : Nat) : Bool :=
  if (97 ≤ c ∧ c ≤ 122) ∨ (65 ≤ c ∧ c ≤ 90) ∨ (48 ≤ c ∧ c ≤ 57) then false
  else if c = 45 ∨ c = 95 ∨ c = 46 ∨ c = 126 then false
  else if c = 36 ∨ c = 38 ∨ c = 43 ∨ c = 44 ∨ c = 47 ∨ c = 58 ∨ c = 59 ∨ c = 61
          ∨ c = 63 ∨ c = 64 then
    (c = 47 ∨ c = 59 ∨ c = 44 ∨ c = 63)
  else true

/-- Upper-case hex digit for percent-encoding. -/
def upperHexDigit (n : Nat) : Char :=
  if n < 10 then Char.ofNat (48 + n) else Char.ofNat (65 + (n - 10))

/-- The UTF-8 bytes of one character (Go strings are byte sequences in
UTF-8). -/
def utf8Bytes (c : Char) : List Nat :=
  let n := c.toNat
  if n < 128 then [n]
  else if n < 2048 then [192 + n / 64, 128 + n % 64]
  else if n < 65536 then [224 + n / 4096, 128 + (n / 64) % 64, 128 + n % 64]
  else [240 + n / 262144, 128 + (n / 4096) % 64, 128 + (n / 64) % 64, 128 + n % 64]

/-- `url.PathEscape` over the UTF-8 bytes of `s`. -/
def pathEscape (s : String) : String :=
  String.mk ((s.data.flatMap utf8Bytes).flatMap (fun b =>
    if shouldEscapeSeg b then ['%', upperHexDigit (b / 16), upperHexDigit (b % 16)]
    else [Char.ofNat b]))

/-- `cloud.Client.CompleteCommand`'s request path for a command id already in
its canonical textual form (`StringOrNumber.String`). -/
def completeCommandPath (commandID : String) : String :=
  "/api/v1/commands/" ++ pathEscape commandID ++ "/complete"

/-! ## Exponential backoff (`internal/util/backoff.go`) -/

/-- `util.Backoff`.  Durations are in nanoseconds (`time.Duration`), modelled
as naturals — all durations in the program are non-negative. -/
structure Backoff where
  bmin : Nat
  bmax : Nat
  cur : Nat
deriving Repr, DecidableEq

/-- `util.NewBackoff`. -/
def newBackoff (bmin bmax : Nat) : Backoff := ⟨bmin, bmax, bmin⟩

/-- `Backoff.Reset`. -/
def Backoff.reset (b : Backoff) : Backoff := { b with cur := b.bmin }

/-- `Backoff.Next`, with the jitter `j = 0.75 + rand.Float64()*0.5` passed as
an explicit input in `ℚ`.  The Go code truncates `float64(d) * j` back to an
integral `time.Duration`; truncation of a non-negative value is `Int.floor`. -/
def Backoff.next (b : Backoff) (j : ℚ) : ℤ × Backoff :=
  let d := b.cur
  let cur1 : Nat :=
    if b.cur < b.bmax then
      if b.cur * 2 > b.bmax then b.bmax else b.cur * 2
    else b.cur
  (Int.floor ((d : ℚ) * j), { b with cur := cur1 })

/-- Iterated `Next` calls with one jitter value per call, returning the list
of produced durations and the final state. -/
def backoffRun (b : Backoff) : List ℚ → List ℤ × Backoff
  | [] => ([], b)
  | j :: js =>
    let (r, b1) := b.next j
    let (rs, b2) := backoffRun b1 js
    (r :: rs, b2)

/-! ## Pairing rewrite (`agent.pair`, response-driven part) -/

/-- The fields of `cloud.RegisterResponse` that `agent.pair` consumes; the
connector id has already been canonicalised to a string by the permissive
decoder. -/
structure RegisterResponse where
  connectorID : String
  secret : String
  printers : List (Int × String)
  pollingCommandsSeconds : Int
  pollingSnapshotsSeconds : Int
deriving Repr

/-- Positional population of `printer_id`s: `resp.Printers[i]` writes into
`cfg.Moonraker[i]` for every index present in both lists. -/
def populatePrinterIDs (moons : List MoonrakerPrinter) (printers : List (Int × String)) :
    List MoonrakerPrinter :=
  moons.enum.map (fun mi =>
    match printers.get? mi.1 with
    | some p => { mi.2 with printerID := p.1 }
    | none => mi.2)

/-- The config rewrite performed by `agent.pair` after a successful
`Register` call, before `SaveAtomic` persists it. -/
def pairRewrite (cfg : Config) (resp : RegisterResponse) : Config :=
  let cfg := { cfg with
    connectorID := resp.connectorID
    connectorSecret := resp.secret
    pairingToken := "" }
  let cfg :=
    if resp.pollingCommandsSeconds > 0 then
      { cfg with pollCommandsSeconds := resp.pollingCommandsSeconds }
    else cfg
  let cfg :=
    if resp.pollingSnapshotsSeconds > 0 then
      { cfg with pushSnapshotsSeconds := resp.pollingSnapshotsSeconds }
    else cfg
  { cfg with moonraker := populatePrinterIDs cfg.moonraker resp.printers }

/-! ## Backup builder (`internal/backup/backup.go`) -/

/-- One regular file under the printer-data root, as seen by `filepath.Walk`:
its path is the list of components relative to the root (so `config/a.cfg` is
`["config", "a.cfg"]`), and its size in bytes.  The walk visits files in the
list's order. -/
structure BFile where
  path : List String
  size : Nat
deriving Repr, DecidableEq

/-- `info.Name()`: the final path component. -/
def fileNameOf (f : BFile) : String := f.path.getLastD ""

/-- Whether the file sits below a directory named `Helper-Script` (the walk
skips that directory's whole subtree via `filepath.SkipDir`). -/
def underHelperScript (f : BFile) : Bool := f.path.dropLast.contains "Helper-Script"

/-- The per-file filter of `backup.Create`'s walk function: skip files under
`Helper-Script`, keep only names ending in `.cfg`, and exclude
`printer-*_*.cfg` variants while keeping the literal `printer.cfg`. -/
def includeFile (f : BFile) : Bool :=
  !underHelperScript f
  && strEnds (fileNameOf f) ".cfg"
  && !(strStarts (fileNameOf f) "printer-" && strHasChar (fileNameOf f) '_'
        && fileNameOf f ≠ "printer.cfg")

/-- The archive entry name: the root-relative path joined with forward
slashes (`filepath.Rel` + `filepath.ToSlash`). -/
def entryName (f : BFile) : String := String.intercalate "/" f.path

/-- The walk body over the files of one selected directory, threading the
running `totalSize` and enforcing the byte ceiling. -/
def walkFiles (maxSize : Nat) : List BFile → Nat → Except String (List String × Nat)
  | [], total => Except.ok ([], total)
  | f :: rest, total =>
    if includeFile f then
      if maxSize > 0 ∧ total + f.size > maxSize then
        Except.error ("archive size exceeds limit of " ++ toString maxSize ++ " bytes")
      else
        match walkFiles maxSize rest (total + f.size) with
        | Except.error e => Except.error e
        | Except.ok (es, t) => Except.ok (entryName f :: es, t)
    else walkFiles maxSize rest total

/-- The subdirectories selected by the include flags, in the order the code
builds them. -/
def selectedDirs (cfg database gcodes logs : Bool) : List String :=
  (if cfg then ["config"] else []) ++ (if database then ["database"] else [])
  ++ (if gcodes then ["gcodes"] else []) ++ (if logs then ["logs"] else [])

/-- Walk each selected directory in turn.  A missing directory is skipped
(`os.Stat` + `os.IsNotExist`), which produces the same entries as walking the
empty file list.  A walk error is wrapped with the directory name. -/
def walkDirs (tree : List BFile) (maxSize : Nat) :
    List String → Nat → Except String (List String × Nat)
  | [], total => Except.ok ([], total)
  | d :: ds, total =>
    match walkFiles maxSize (tree.filter (fun f => f.path.head? = some d)) total with
    | Except.error e => Except.error ("failed to archive directory " ++ d ++ ": " ++ e)
    | Except.ok (es, t1) =>
      match walkDirs tree maxSize ds t1 with
      | Except.error e => Except.error e
      | Except.ok (es2, t2) => Except.ok (es ++ es2, t2)

/-- `backup.Create`.  `tree?` is the `os.Stat` view of the printer-data root:
`none` when the root does not exist, otherwise the files below it.  The first
component of the result records whether the output file was created on disk
(`os.Create` runs before the walk); the second is the list of archive entry
names and the total archived byte count, or the error.  Gzip compression and
the SHA-256 accumulator transform the same entry stream and are not modelled
structurally. -/
def backupCreate (tree? : Option (List BFile)) (includeConfig includeDatabase
    includeGcodes includeLogs : Bool) (printerDataRoot : String) (maxSizeBytes : Nat) :
    Bool × Except String (List String × Nat) :=
  if printerDataRoot = "" then
    (false, Except.error "printer_data_root is required")
  else
    match tree? with
    | none => (false, Except.error "printer_data_root does not exist")
    | some tree =>
      let dirs := selectedDirs includeConfig includeDatabase includeGcodes includeLogs
      if dirs = [] then (false, Except.error "no directories selected for backup")
      else (true, walkDirs tree maxSizeBytes dirs 0)

/-! ## Base64 decoding (`encoding/base64.StdEncoding.DecodeString`) -/

/-- Value of one standard-alphabet base64 character. -/
def b64Val (c : Char) : Option Nat :=
  if ('A' ≤ c ∧ c ≤ 'Z') then some (c.toNat - 65)
  else if ('a' ≤ c ∧ c ≤ 'z') then some (c.toNat - 97 + 26)
  else if ('0' ≤ c ∧ c ≤ '9') then some (c.toNat - 48 + 52)
  else if c = '+' then some 62
  else if c = '/' then some 63
  else none

/-- Decode base64 input four characters at a time; the final quantum may use
one or two padding characters.  `none` models `base64.CorruptInputError`. -/
def base64DecodeAux : List Char → Option (List Nat)
  | [] => some []
  | a :: b :: '=' :: '=' :: rest =>
    match b64Val a, b64Val b, rest with
    | some va, some vb, [] =>
      if vb % 16 = 0 then some [va * 4 + vb / 16] else none
    | _, _, _ => none
  | a :: b :: c :: '=' :: rest =>
    match b64Val a, b64Val b, b64Val c, rest with
    | some va, some vb, some vc, [] =>
      if vc % 4 = 0 then some [va * 4 + vb / 16, (vb % 16) * 16 + vc / 4] else none
    | _, _, _, _ => none
  | a :: b :: c :: d :: rest =>
    match b64Val a, b64Val b, b64Val c, b64Val d, base64DecodeAux rest with
    | some va, some vb, some vc, some vd, some tail =>
      some ([va * 4 + vb / 16, (vb % 16) * 16 + vc / 4, (vc % 4) * 64 + vd] ++ tail)
    | _, _, _, _, _ => none
  | _ => none

/-- `base64.StdEncoding.DecodeString` (newline stripping not modelled). -/
def base64Decode (s : String) : Option (List Nat) := base64DecodeAux s.data

/-! ## Command executor (`internal/agent/commands.go`) -/

/-- `cloud.Command`, with the id already canonicalised by the permissive
decoder. -/
structure Command where
  id : String
  printerID : Int
  action : String
  params : Rmap
deriving Repr

/-- `cloud.Snapshot`. -/
structure Snapshot where
  printerID : Int
  capturedAt : String
  payload : Rmap
deriving Repr

/-- `cloud.CommandCompleteRequest` (an empty `errorMessage` is omitted on the
wire by `omitempty`). -/
structure CompleteReq where
  status : String
  errorMessage : String
  result : Rmap
deriving Repr

/-- Observable I/O actions of one executor / snapshot iteration, in program
order. -/
inductive Effect where
  | controllerOp (printerID : Int) (op : String)
  | pushSnapshots (snaps : List Snapshot)
  | completeCommand (commandID : String) (req : CompleteReq)
  | uploadBackup (presignedURL : String) (localPath : String)
deriving Repr

/-- The outcome of one controller HTTP call, supplied by the environment. -/
abbrev CallResult := Except String Unit

/-- The behaviour of one Moonraker controller client, abstracting its HTTP
round trips:  each operation's outcome is a fixed value or function of the
request. -/
structure MoonEnv where
  pause : CallResult
  resume : CallResult
  cancel : CallResult
  startPrint : String → CallResult
  uploadFile : String → List Nat → CallResult
  deleteFile : String → CallResult
  listFiles : Except String (List JVal)
  queryObjects : Except String Rmap

/-- The agent's runtime environment: the controller-client map (`a.moons`),
the pieces of the OS and cloud the executor touches, and the iteration
timestamp. -/
structure AgentEnv where
  moons : List (Int × MoonEnv)
  home : String
  stateDir : String
  tree : String → Option (List BFile)
  uploadBackup : String → Except String Unit
  shaOf : List String → String
  pushSnapshots : List Snapshot → Except String Nat
  now : String

/-- `a.moons[cmd.PrinterID]` (a missing key yields Go's `nil`). -/
def mlookup (moons : List (Int × MoonEnv)) (pid : Int) : Option MoonEnv :=
  (moons.find? (fun kv => kv.1 = pid)).map (fun kv => kv.2)

/-- Convert a controller-call outcome to the Go `error` it returns. -/
def errOf (r : CallResult) : Option String :=
  match r with
  | Except.ok _ => none
  | Except.error e => some e

/-- Prefix an underlying error message, as `fmt.Errorf("...: %w", err)`. -/
def wrapErr (prefixMsg : String) (r : CallResult) : Option String :=
  match r with
  | Except.ok _ => none
  | Except.error e => some (prefixMsg ++ e)

/-- `filepath.Join` for the clean absolute bases and clean relative tails the
agent passes to it. -/
def joinPath (a b : String) : String := a ++ "/" ++ b

/-- `agent.executeUploadFile`: require `filename` and base64 `content`
params, decode, record filename/size in the result, then forward to the
controller. -/
def executeUploadFile (mc : MoonEnv) (cmd : Command) (result : Rmap) :
    Option String × Rmap × List Effect :=
  let filename := jGetStr cmd.params "filename"
  if filename = "" then
    (some "missing params.filename for upload_file", result, [])
  else
    let contentBase64 := jGetStr cmd.params "content"
    if contentBase64 = "" then
      (some "missing params.content for upload_file", result, [])
    else
      match base64Decode contentBase64 with
      | none => (some "failed to decode base64 content: illegal base64 data", result, [])
      | some content =>
        let result := rset result "filename" (JVal.str filename)
        let result := rset result "size" (JVal.num content.length)
        (wrapErr "failed to upload file to moonraker: " (mc.uploadFile filename content),
         result, [Effect.controllerOp cmd.printerID "upload_file"])

/-- `agent.executeDeleteFile`. -/
def executeDeleteFile (mc : MoonEnv) (cmd : Command) (result : Rmap) :
    Option String × Rmap × List Effect :=
  let filename := jGetStr cmd.params "filename"
  if filename = "" then
    (some "missing params.filename for delete_file", result, [])
  else
    let result := rset result "filename" (JVal.str filename)
    (wrapErr "failed to delete file from moonraker: " (mc.deleteFile filename),
     result, [Effect.controllerOp cmd.printerID "delete_file"])

/-- `agent.executeSyncFiles`. -/
def executeSyncFiles (mc : MoonEnv) (cmd : Command) (result : Rmap) :
    Option String × Rmap × List Effect :=
  match mc.listFiles with
  | Except.error e =>
    (some ("failed to list files from moonraker: " ++ e), result,
     [Effect.controllerOp cmd.printerID "list_files"])
  | Except.ok files =>
    let result := rset result "files" (JVal.arr files)
    let result := rset result "count" (JVal.num files.length)
    (none, result, [Effect.controllerOp cmd.printerID "list_files"])

/-- The `include` map of a `create_backup` command (`nil` map when absent). -/
def includeMapOf (params : Rmap) : Rmap :=
  match params.lookup "include" with
  | some (JVal.obj kvs) => kvs
  | _ => []

/-- A boolean from a params map, Go type-assertion style. -/
def pBool (kvs : Rmap) (k : String) : Bool :=
  match kvs.lookup k with
  | some (JVal.bool b) => b
  | _ => false

/-- The printer-data root chosen by `executeCreateBackup` from the `HOME`
environment variable and the optional `printer_data_root` param with `~/`
expansion. -/
def printerDataRootOf (home : String) (params : Rmap) : String :=
  let root := if home ≠ "" ∧ home ≠ "/root" then home ++ "/printer_data"
              else "/usr/data/printer_data"
  let o := jGetStr params "printer_data_root"
  if o = "" then root
  else if strStarts o "~/" then
    if home = "/root" then joinPath "/usr/data" (o.drop 2)
    else if home ≠ "" then joinPath home (o.drop 2)
    else o
  else o

/-- `agent.executeCreateBackup`.  `stagedFs` is the set of staged archive
paths existing under the state directory; the returned list is the set after
the command terminates.  The `defer` removing the archive is registered only
after `backup.Create` succeeds, and runs on every later return path. -/
def executeCreateBackup (env : AgentEnv) (stagedFs : List String) (cmd : Command)
    (result : Rmap) : Option String × Rmap × List Effect × List String :=
  let backupID := jGetStr cmd.params "backup_id"
  if backupID = "" then (some "missing params.backup_id", result, [], stagedFs)
  else
    let presignedURL := jGetStr cmd.params "presigned_url"
    if presignedURL = "" then (some "missing params.presigned_url", result, [], stagedFs)
    else
      let printerDataRoot := printerDataRootOf env.home cmd.params
      let inc := includeMapOf cmd.params
      let includeConfig := pBool inc "config"
      let includeDatabase := pBool inc "database"
      let includeGcodes := pBool inc "gcodes"
      let includeLogs := pBool inc "logs"
      if !includeConfig && !includeDatabase && !includeGcodes && !includeLogs then
        (some "no directories selected for backup", result, [], stagedFs)
      else
        let outputPath := joinPath env.stateDir (backupID ++ ".tar.gz")
        let created := backupCreate (env.tree printerDataRoot) includeConfig
          includeDatabase includeGcodes includeLogs printerDataRoot (10 * 2 ^ 30)
        let fs1 := if created.1 then outputPath :: stagedFs else stagedFs
        match created.2 with
        | Except.error e =>
          (some ("failed to create backup: " ++ e), result, [], fs1)
        | Except.ok entries =>
          let upload := env.uploadBackup presignedURL
          let fs2 := fs1.filter (fun p => p ≠ outputPath)
          match upload with
          | Except.error e =>
            (some ("failed to upload backup: " ++ e), result,
             [Effect.uploadBackup presignedURL outputPath], fs2)
          | Except.ok _ =>
            let result := rset result "backup_id" (JVal.str backupID)
            let result := rset result "size_bytes" (JVal.num entries.2)
            let result := rset result "sha256" (JVal.str (env.shaOf entries.1))
            let result := rset result "uploaded_at" (JVal.str env.now)
            (none, result, [Effect.uploadBackup presignedURL outputPath], fs2)

/-- The action dispatch of `pollAndExecuteCommands`, given the controller
client for the command's printer.  Returns the handler error, the accumulated
result map, the controller/upload effects the handler performed, and the
staged-file set. -/
def executeAction (mc : MoonEnv) (env : AgentEnv) (stagedFs : List String)
    (cmd : Command) : Option String × Rmap × List Effect × List String :=
  let result : Rmap := [("action", JVal.str cmd.action)]
  match cmd.action with
  | "pause" => (errOf mc.pause, result, [Effect.controllerOp cmd.printerID "pause"], stagedFs)
  | "resume" => (errOf mc.resume, result, [Effect.controllerOp cmd.printerID "resume"], stagedFs)
  | "cancel" => (errOf mc.cancel, result, [Effect.controllerOp cmd.printerID "cancel"], stagedFs)
  | "start_print" =>
    let filename := jGetStr cmd.params "filename"
    if filename = "" then
      (some "missing params.filename for start_print", result, [], stagedFs)
    else
      (errOf (mc.startPrint filename), rset result "filename" (JVal.str filename),
       [Effect.controllerOp cmd.printerID "start_print"], stagedFs)
  | "upload_file" =>
    let r := executeUploadFile mc cmd result
    (r.1, r.2.1, r.2.2, stagedFs)
  | "delete_file" =>
    let r := executeDeleteFile mc cmd result
    (r.1, r.2.1, r.2.2, stagedFs)
  | "sync_files" =>
    let r := executeSyncFiles mc cmd result
    (r.1, r.2.1, r.2.2, stagedFs)
  | "create_backup" => executeCreateBackup env stagedFs cmd result
  | other => (some ("unsupported action: " ++ other), result, [], stagedFs)

/-- One iteration of the inner loop of `pollAndExecuteCommands` for a single
command: look up the controller, dispatch the action, take the post-command
snapshot on success, and report completion.  Returns the effect trace and the
staged-file set. -/
def execOneCommand (env : AgentEnv) (stagedFs : List String) (cmd : Command) :
    List Effect × List String :=
  match mlookup env.moons cmd.printerID with
  | none =>
    ([Effect.completeCommand cmd.id
        ⟨"failed", "unknown printer_id " ++ toString cmd.printerID,
         [("printer_id", JVal.num cmd.printerID)]⟩], stagedFs)
  | some mc =>
    let r := executeAction mc env stagedFs cmd
    match r.1 with
    | some msg =>
      (r.2.2.1 ++ [Effect.completeCommand cmd.id ⟨"failed", msg, r.2.1⟩], r.2.2.2)
    | none =>
      match mc.queryObjects with
      | Except.ok payload =>
        let result := rset r.2.1 "post_snapshot" (JVal.str "captured")
        (r.2.2.1 ++ [Effect.controllerOp cmd.printerID "query_objects",
          Effect.pushSnapshots [⟨cmd.printerID, env.now, payload⟩],
          Effect.completeCommand cmd.id ⟨"succeeded", "", result⟩], r.2.2.2)
      | Except.error qe =>
        let result := rset r.2.1 "post_snapshot_error" (JVal.str qe)
        (r.2.2.1 ++ [Effect.controllerOp cmd.printerID "query_objects",
          Effect.completeCommand cmd.id ⟨"succeeded", "", result⟩], r.2.2.2)

/-- The command loop body over a fetched batch, in cloud order. -/
def runCommands (env : AgentEnv) (stagedFs : List String) :
    List Command → List Effect × List String
  | [] => ([], stagedFs)
  | c :: cs =>
    let r := execOneCommand env stagedFs c
    let rest := runCommands env r.2 cs
    (r.1 ++ rest.1, rest.2)

/-! ## Snapshot collection (`internal/agent/snapshots.go`) -/

/-- The collection pass of `collectAndPushSnapshots` over the configured
bindings: query each printer that has a client, keeping the successful
payloads.  Returns the controller effects and the collected snapshots in
binding order. -/
def collectSnaps (env : AgentEnv) : List MoonrakerPrinter → List Effect × List Snapshot
  | [] => ([], [])
  | p :: rest =>
    match mlookup env.moons p.printerID with
    | none => collectSnaps env rest
    | some mc =>
      let r := collectSnaps env rest
      match mc.queryObjects with
      | Except.error _ => (Effect.controllerOp p.printerID "query_objects" :: r.1, r.2)
      | Except.ok payload =>
        (Effect.controllerOp p.printerID "query_objects" :: r.1,
         ⟨p.printerID, env.now, payload⟩ :: r.2)

/-- `agent.collectAndPushSnapshots`: push one batch only when at least one
snapshot was collected; an empty collection returns success immediately. -/
def collectAndPushSnapshots (env : AgentEnv) (bindings : List MoonrakerPrinter) :
    List Effect × Except String Unit :=
  let r := collectSnaps env bindings
  if r.2.isEmpty then (r.1, Except.ok ())
  else
    match env.pushSnapshots r.2 with
    | Except.error e => (r.1 ++ [Effect.pushSnapshots r.2], Except.error e)
    | Except.ok _ => (r.1 ++ [Effect.pushSnapshots r.2], Except.ok ())

/-- The per-iteration backoff handling shared by the three loops: a failed
iteration sleeps for `bo.Next()`, a successful one calls `bo.Reset()`. -/
def loopIterBackoff (bo : Backoff) (r : Except String Unit) (j : ℚ) : Backoff :=
  match r with
  | Except.ok _ => bo.reset
  | Except.error _ => (bo.next j).2

/-! ## Concrete example values used by witnesses and counterexamples -/

/-- A pre-pairing config as produced by the installer (spec scenario E1). -/
def cfgPairing : Config :=
  { cloudURL := "http://h/", pairingToken := "PT", connectorID := "",
    connectorSecret := "", siteName := "", pollCommandsSeconds := 3,
    pushSnapshotsSeconds := 30, heartbeatSeconds := 10,
    stateDir := "/var/lib/printer-connector",
    moonraker := [⟨0, "K1", "http://127.0.0.1:7125"⟩] }

/-- A post-pairing steady-state config that passes `Validate`. -/
def cfgSteady : Config :=
  { cloudURL := "http://h/", pairingToken := "", connectorID := "7",
    connectorSecret := "S", siteName := "", pollCommandsSeconds := 5,
    pushSnapshotsSeconds := 45, heartbeatSeconds := 10,
    stateDir := "/var/lib/printer-connector",
    moonraker := [⟨42, "K1", "http://127.0.0.1:7125"⟩] }

/-- The register response of spec scenario E1. -/
def respE1 : RegisterResponse :=
  { connectorID := "7", secret := "S", printers := [(42, "K1")],
    pollingCommandsSeconds := 5, pollingSnapshotsSeconds := 45 }

/-- A controller environment whose calls all succeed, with a fixed
query-objects payload. -/
def moonOK : MoonEnv :=
  { pause := Except.ok (), resume := Except.ok (), cancel := Except.ok ()
    startPrint := fun _ => Except.ok ()
    uploadFile := fun _ _ => Except.ok ()
    deleteFile := fun _ => Except.ok ()
    listFiles := Except.ok []
    queryObjects := Except.ok [("print_stats", JVal.null)] }

/-- A controller environment whose query-objects call fails. -/
def moonQueryFail : MoonEnv :=
  { moonOK with queryObjects := Except.error "moonraker http 500: boom" }

/-- An agent environment with printer 42 bound to an all-success controller,
no printer-data tree, and successful cloud calls. -/
def envOK : AgentEnv :=
  { moons := [(42, moonOK)], home := "", stateDir := "/var/lib/printer-connector",
    tree := fun _ => none
    uploadBackup := fun _ => Except.ok ()
    shaOf := fun _ => "d0", pushSnapshots := fun _ => Except.ok 1
    now := "2025-01-01T00:00:00Z" }

/-- The environment of the staged-file leak counterexample: the printer-data
root exists and holds one config file larger than the 10 GiB archive
ceiling, so `backup.Create` fails after creating the output file. -/
def envLeak : AgentEnv :=
  { envOK with
    tree := fun r =>
      if r = "/usr/data/printer_data" then some [⟨["config", "big.cfg"], 10 * 2 ^ 30 + 1⟩]
      else none }

/-- An agent environment with a small healthy printer-data tree, for the
successful create-backup witness. -/
def envBackupOK : AgentEnv :=
  { envOK with
    tree := fun r =>
      if r = "/usr/data/printer_data" then some [⟨["config", "printer.cfg"], 50⟩]
      else none }

/-- The `create_backup` command of spec scenario E6. -/
def cmdBackup : Command :=
  { id := "C6", printerID := 42, action := "create_backup",
    params := [("backup_id", JVal.str "B1"),
               ("presigned_url", JVal.str "https://s3/put"),
               ("include", JVal.obj [("config", JVal.bool true)])] }

/-- The `pause` command of spec scenario E2. -/
def cmdPause : Command :=
  { id := "C1", printerID := 42, action := "pause", params := [] }

/-- The unknown-printer `cancel` command of spec scenario E4. -/
def cmdUnknown : Command :=
  { id := "9", printerID := 999, action := "cancel", params := [] }

/-- An agent environment where printer 42's controller fails every query. -/
def envSnapFail : AgentEnv :=
  { envOK with moons := [(42, moonQueryFail)] }

/-- The single configured binding used in snapshot-loop witnesses. -/
def bindingK1 : MoonrakerPrinter :=
  { printerID := 42, name := "K1", baseURL := "http://127.0.0.1:7125" }

/-- A root-relative path as produced by a real `filepath.Walk`: nonempty,
with no empty, dot, dot-dot or slash-carrying components. -/
def validRelPath (p : List String) : Bool :=
  !p.isEmpty && p.all (fun comp =>
    comp ≠ "" && comp ≠ "." && comp ≠ ".." && !strHasChar comp '/')

/-- The printer-data tree of spec scenario E6: one kept config file, one
excluded `printer-*_*.cfg` variant, one file under `Helper-Script`. -/
def treeE6 : List BFile :=
  [⟨["config", "printer.cfg"], 50⟩,
   ⟨["config", "printer-001_alt.cfg"], 10⟩,
   ⟨["config", "Helper-Script", "x.cfg"], 5⟩]

/-! ## Lemmas about the file-system model -/

theorem find_filter_ne (fs : Fs) (p q : String) (h : q ≠ p) :
    (fs.filter (fun kv => kv.1 ≠ p)).find? (fun kv => kv.1 = q)
      = fs.find? (fun kv => kv.1 = q) := by
  induction fs with
  | nil => rfl
  | cons kv rest ih =>
    by_cases h1 : kv.1 = p
    · have h2 : ¬(kv.1 = q) := fun hq => h (hq ▸ h1)
      rw [List.filter_cons_of_neg (by simpa using h1), ih,
          List.find?_cons_of_neg _ (by simpa using h2)]
    · rw [List.filter_cons_of_pos (by simpa using h1)]
      by_cases h2 : kv.1 = q
      · rw [List.find?_cons_of_pos _ (by simpa using h2),
            List.find?_cons_of_pos _ (by simpa using h2)]
      · rw [List.find?_cons_of_neg _ (by simpa using h2), ih,
            List.find?_cons_of_neg _ (by simpa using h2)]

theorem fsRead_fsWrite_self (fs : Fs) (p : String) (d : FileData) :
    fsRead (fsWrite fs p d) p = some d := by
  simp [fsRead, fsWrite, List.find?_cons]

theorem fsRead_fsWrite_ne (fs : Fs) (p q : String) (d : FileData) (h : q ≠ p) :
    fsRead (fsWrite fs p d) q = fsRead fs q := by
  unfold fsRead fsWrite
  rw [List.find?_cons_of_neg _ (by simp; exact fun hq => h hq.symm),
      find_filter_ne fs p q h]

theorem fsRead_fsRemove_self (fs : Fs) (p : String) :
    fsRead (fsRemove fs p) p = none := by
  unfold fsRead fsRemove
  induction fs with
  | nil => rfl
  | cons kv rest ih =>
    by_cases h1 : kv.1 = p
    · rw [List.filter_cons_of_neg (by simpa using h1)]
      exact ih
    · rw [List.filter_cons_of_pos (by simpa using h1),
          List.find?_cons_of_neg _ (by simpa using fun hq => h1 hq)]
      exact ih

theorem fsRead_fsRemove_ne (fs : Fs) (p q : String) (h : q ≠ p) :
    fsRead (fsRemove fs p) q = fsRead fs q := by
  unfold fsRead fsRemove
  rw [find_filter_ne fs p q h]

theorem tmp_path_ne (path : String) : path ≠ path ++ ".tmp" := by
  intro h
  have hl := congrArg String.length h
  rw [String.length_append] at hl
  have h4 : (".tmp" : String).length = 4 := by decide
  omega

/-- Claim C1: `SaveAtomic` writes the serialized config to the temporary file
`path + ".tmp"` (hence in the same directory as the target) with owner-only
permissions 0600; before the rename the previously committed file at `path`
is untouched byte for byte, and after the rename — the sole commit point —
`path` holds the new serialized config with owner-only permissions and the
temporary file is gone. -/
theorem saveAtomic_crash_and_commit (fs : Fs) (path : String) (cfg : Config) :
    fsRead (saveAtomicPreRename fs path cfg) (path ++ ".tmp")
        = some ⟨serializeConfig cfg, 0o600⟩
    ∧ fsRead (saveAtomicPreRename fs path cfg) path = fsRead fs path
    ∧ fsRead (saveAtomic fs path cfg) path = some ⟨serializeConfig cfg, 0o600⟩
    ∧ fsRead (saveAtomic fs path cfg) (path ++ ".tmp") = none := by
  have hne : path ≠ path ++ ".tmp" := tmp_path_ne path
  have hne2 : path ++ ".tmp" ≠ path := fun h => hne h.symm
  refine ⟨?_, ?_, ?_, ?_⟩
  · exact fsRead_fsWrite_self fs (path ++ ".tmp") _
  · exact fsRead_fsWrite_ne fs (path ++ ".tmp") path _ hne
  · unfold saveAtomic fsRename
    rw [show saveAtomicPreRename fs path cfg
          = fsWrite fs (path ++ ".tmp") ⟨serializeConfig cfg, 0o600⟩ from rfl,
        fsRead_fsWrite_self fs (path ++ ".tmp") _]
    exact fsRead_fsWrite_self _ path _
  · unfold saveAtomic fsRename
    rw [show saveAtomicPreRename fs path cfg
          = fsWrite fs (path ++ ".tmp") ⟨serializeConfig cfg, 0o600⟩ from rfl,
        fsRead_fsWrite_self fs (path ++ ".tmp") _]
    rw [fsRead_fsWrite_ne _ path (path ++ ".tmp") _ hne2]
    exact fsRead_fsRemove_self _ (path ++ ".tmp")

/-! ## Backoff theorems -/

/-- Claim C4, counterexample: with the agent's base 1s / cap 60s backoff and
jitter values inside [0.75, 1.25), seven consecutive `Next()` calls without a
`Reset` return 1, 2, 4, 8, 16, 32 and then 72 — the last value exceeds the
cap of 60, because the jitter multiplies the already-capped base. -/
theorem backoff_returns_above_max :
    (newBackoff 1 60).bmin ≤ (newBackoff 1 60).bmax
    ∧ (∀ j ∈ [(1:ℚ), 1, 1, 1, 1, 1, 6/5], 3/4 ≤ j ∧ j < 5/4)
    ∧ (backoffRun (newBackoff 1 60) [1, 1, 1, 1, 1, 1, 6/5]).1
        = [1, 2, 4, 8, 16, 32, 72]
    ∧ ¬((72:ℤ) ≤ ((newBackoff 1 60).bmax : ℤ)) := by
  refine ⟨by norm_num [newBackoff], ?_, ?_, by norm_num [newBackoff]⟩
  · intro j hj
    simp only [List.mem_cons, List.not_mem_nil, or_false] at hj
    rcases hj with h | h | h | h | h | h | h <;> rw [h] <;> norm_num
  · have h72 : ((60:ℕ):ℚ) * (6/5) = ((72:ℤ):ℚ) := by norm_num
    norm_num [backoffRun, Backoff.next, newBackoff, Int.floor_natCast, h72,
      Int.floor_intCast]

/-- Claim C4, amended: for a backoff state whose current value is within the
cap (as holds for every state reachable from `NewBackoff(min, max)` with
`min ≤ max`), each `Next()` returns the truncation of the pre-doubling
current value multiplied by the jitter; the returned duration is bounded
strictly by 1.25 × max (not by max itself), and the internal base doubles,
clamped at the cap, so the invariant `cur ≤ max` is preserved. -/
theorem backoff_next_bounds (b : Backoff) (j : ℚ)
    (hcur : b.cur ≤ b.bmax) (hmax : 0 < b.bmax)
    (hj1 : 3/4 ≤ j) (hj2 : j < 5/4) :
    (b.next j).1 = Int.floor ((b.cur : ℚ) * j)
    ∧ (((b.next j).1 : ℚ) < 5/4 * (b.bmax : ℚ))
    ∧ (b.next j).2.cur = (if b.cur < b.bmax then min (b.cur * 2) b.bmax else b.cur)
    ∧ (b.next j).2.cur ≤ b.bmax := by
  refine ⟨rfl, ?_, ?_, ?_⟩
  · have hj0 : (0:ℚ) ≤ j := le_trans (by norm_num) hj1
    have hd : ((b.cur : ℚ)) ≤ (b.bmax : ℚ) := by exact_mod_cast hcur
    have h1 : ((b.cur : ℚ)) * j ≤ (b.bmax : ℚ) * j :=
      mul_le_mul_of_nonneg_right hd hj0
    have h2 : ((b.bmax : ℚ)) * j < (b.bmax : ℚ) * (5/4) := by
      exact mul_lt_mul_of_pos_left hj2 (by exact_mod_cast hmax)
    calc (((b.next j).1 : ℚ)) ≤ (b.cur : ℚ) * j := Int.floor_le _
      _ ≤ (b.bmax : ℚ) * j := h1
      _ < (b.bmax : ℚ) * (5/4) := h2
      _ = 5/4 * (b.bmax : ℚ) := mul_comm _ _
  · show (if b.cur < b.bmax then if b.cur * 2 > b.bmax then b.bmax else b.cur * 2
          else b.cur) = _
    rw [Nat.min_def]
    split_ifs <;> omega
  · show (if b.cur < b.bmax then if b.cur * 2 > b.bmax then b.bmax else b.cur * 2
          else b.cur) ≤ b.bmax
    split_ifs <;> omega

/-- Witness for `backoff_next_bounds` at the agent's concrete backoff
(base 1s, cap 60s) and jitter 1. -/
theorem backoff_next_bounds_witness :
    ((newBackoff 1 60).next 1).1 = Int.floor (((newBackoff 1 60).cur : ℚ) * 1)
    ∧ ((((newBackoff 1 60).next 1).1 : ℚ) < 5/4 * ((newBackoff 1 60).bmax : ℚ))
    ∧ ((newBackoff 1 60).next 1).2.cur
        = (if (newBackoff 1 60).cur < (newBackoff 1 60).bmax
           then min ((newBackoff 1 60).cur * 2) (newBackoff 1 60).bmax
           else (newBackoff 1 60).cur)
    ∧ ((newBackoff 1 60).next 1).2.cur ≤ (newBackoff 1 60).bmax :=
  backoff_next_bounds (newBackoff 1 60) 1 (by norm_num [newBackoff])
    (by norm_num [newBackoff]) (by norm_num) (by norm_num)

/-! ## Permissive identifier decoding theorems -/

/-- On escape-free printable text followed by the closing quote, the string
scanner accumulates the text verbatim. -/
theorem jsonUnquoteAux_clean (l : List Char) (acc : List Char)
    (h : ∀ c ∈ l, c ≠ '"' ∧ c ≠ '\\' ∧ 32 ≤ c.toNat) :
    jsonUnquoteAux (l ++ ['"']) acc = some (String.mk (acc.reverse ++ l)) := by
  induction l generalizing acc with
  | nil =>
    rw [List.nil_append, List.append_nil]
    rfl
  | cons c cs ih =>
    obtain ⟨h1, h2, h3⟩ := h c (by simp)
    have h4 : ¬(c.toNat < 32) := by omega
    rw [List.cons_append]
    rw [show jsonUnquoteAux (c :: (cs ++ ['"'])) acc
          = jsonUnquoteAux (cs ++ ['"']) (c :: acc) by
      rw [jsonUnquoteAux.eq_def]
      simp [h1, h2, h4]]
    rw [ih (c :: acc) (fun x hx => h x (by simp [hx]))]
    simp

/-- Claim C5: the permissive identifier decoder maps both the quoted JSON
string form and the bare number form to the same canonical in-memory string:
concretely both `"42"` (quoted) and `42` (bare) decode to the string `42`;
in general any escape-free printable identifier is accepted in quoted form
and yielded verbatim, and any nonempty non-null token not starting with a
quote is yielded verbatim. -/
theorem stringOrNumber_canonical :
    (unmarshalStringOrNumber "\"42\"" = some "42"
      ∧ unmarshalStringOrNumber "42" = some "42")
    ∧ (∀ s : String, (∀ c ∈ s.data, c ≠ '"' ∧ c ≠ '\\' ∧ 32 ≤ c.toNat) →
        unmarshalStringOrNumber ("\"" ++ s ++ "\"") = some s)
    ∧ (∀ s : String, s ≠ "" → s ≠ "null" → s.data.head? ≠ some '"' →
        unmarshalStringOrNumber s = some s) := by
  refine ⟨⟨by decide, by decide⟩, ?_, ?_⟩
  · intro s hs
    have hdata : ("\"" ++ s ++ "\"").data = '"' :: (s.data ++ ['"']) := by
      simp [String.data_append]
    have hne1 : ("\"" ++ s ++ "\"") ≠ "" := by
      intro h
      have := congrArg String.data h
      rw [hdata] at this
      simp at this
    have hne2 : ("\"" ++ s ++ "\"") ≠ "null" := by
      intro h
      have := congrArg String.data h
      rw [hdata] at this
      simp at this
    unfold unmarshalStringOrNumber
    rw [if_neg (by simp [hne1, hne2])]
    rw [if_pos (by rw [hdata]; rfl)]
    unfold jsonUnquote
    rw [hdata]
    show jsonUnquoteAux (s.data ++ ['"']) [] = some s
    rw [jsonUnquoteAux_clean s.data [] hs]
    simp
  · intro s h1 h2 h3
    unfold unmarshalStringOrNumber
    rw [if_neg (by simp [h1, h2]), if_neg h3]

/-- Witness for `stringOrNumber_canonical` at the identifier `42`. -/
theorem stringOrNumber_canonical_witness :
    unmarshalStringOrNumber ("\"" ++ "42" ++ "\"") = some "42"
    ∧ unmarshalStringOrNumber "42" = some "42" :=
  ⟨stringOrNumber_canonical.2.1 "42" (by decide),
   stringOrNumber_canonical.2.2 "42" (by decide) (by decide) (by decide)⟩

/-! ## Validation and pairing theorems -/

/-- A config accepted by `Validate` holds exactly one of the pairing token
and the credential pair. -/
theorem validate_ok_pair_xor (c : Config) (h : validate c = Except.ok ()) :
    (c.pairingToken ≠ "" ∧ ¬(c.connectorID ≠ "" ∧ c.connectorSecret ≠ ""))
    ∨ (c.pairingToken = "" ∧ (c.connectorID ≠ "" ∧ c.connectorSecret ≠ "")) := by
  by_cases hp : c.pairingToken = "" <;>
    by_cases hci : c.connectorID = "" <;>
      by_cases hcs : c.connectorSecret = "" <;>
  first
    | tauto
    | (exfalso
       unfold validate at h
       simp [hp, hci, hcs] at h
       split at h
       · simp_all
       · split at h <;> simp_all)

/-- The credential fields produced by the pairing rewrite. -/
theorem pairRewrite_fields (c : Config) (resp : RegisterResponse) :
    (pairRewrite c resp).pairingToken = ""
    ∧ (pairRewrite c resp).connectorID = resp.connectorID
    ∧ (pairRewrite c resp).connectorSecret = resp.secret
    ∧ (pairRewrite c resp).moonraker
        = populatePrinterIDs c.moonraker resp.printers := by
  unfold pairRewrite
  split_ifs <;> simp

/-- Positional population preserves the binding count. -/
theorem populate_length (ms : List MoonrakerPrinter) (ps : List (Int × String)) :
    (populatePrinterIDs ms ps).length = ms.length := by
  simp [populatePrinterIDs]

/-- Positional population writes `resp.printers[i].id` into binding `i`. -/
theorem populate_get (ms : List MoonrakerPrinter) (ps : List (Int × String))
    (i : ℕ) (hi : i < ms.length) (hp : i < ps.length) :
    ((populatePrinterIDs ms ps)[i]?).map MoonrakerPrinter.printerID
      = (ps[i]?).map Prod.fst := by
  unfold populatePrinterIDs
  rw [List.getElem?_map, List.getElem?_enum]
  rw [List.getElem?_eq_getElem hi, List.getElem?_eq_getElem hp]
  simp [List.getElem?_eq_getElem hp]

/-- Claim C6: `Validate` accepts a config only when it carries exactly one of
the pairing token or the credential pair (both together or neither is
rejected); and for a register response carrying nonempty credentials, the
pairing rewrite clears the pairing token, installs both credentials — so the
exactly-one invariant holds of the rewritten config — and populates
`printer_id`s positionally from the response against the moonraker list. -/
theorem validate_xor_and_pairing (c : Config) (resp : RegisterResponse)
    (hid : resp.connectorID ≠ "") (hsec : resp.secret ≠ "") :
    (∀ c2 : Config, validate c2 = Except.ok () →
      (c2.pairingToken ≠ "" ∧ ¬(c2.connectorID ≠ "" ∧ c2.connectorSecret ≠ ""))
      ∨ (c2.pairingToken = "" ∧ (c2.connectorID ≠ "" ∧ c2.connectorSecret ≠ "")))
    ∧ (pairRewrite c resp).pairingToken = ""
    ∧ (pairRewrite c resp).connectorID ≠ ""
    ∧ (pairRewrite c resp).connectorSecret ≠ ""
    ∧ (pairRewrite c resp).connectorID = resp.connectorID
    ∧ (pairRewrite c resp).connectorSecret = resp.secret
    ∧ (pairRewrite c resp).moonraker.length = c.moonraker.length
    ∧ (∀ i : ℕ, i < c.moonraker.length → i < resp.printers.length →
        ((pairRewrite c resp).moonraker[i]?).map MoonrakerPrinter.printerID
          = (resp.printers[i]?).map Prod.fst) := by
  obtain ⟨h1, h2, h3, h4⟩ := pairRewrite_fields c resp
  refine ⟨validate_ok_pair_xor, h1, ?_, ?_, h2, h3, ?_, ?_⟩
  · rw [h2]; exact hid
  · rw [h3]; exact hsec
  · rw [h4]; exact populate_length c.moonraker resp.printers
  · intro i hi hp
    rw [h4]
    exact populate_get c.moonraker resp.printers i hi hp

/-- Witness for `validate_xor_and_pairing`: the E1 pairing scenario — the
pre-pairing config with token `PT` rewritten by the response
`{id: 7, secret: S, printers: [42]}`. -/
theorem validate_xor_and_pairing_witness :
    ((pairRewrite cfgPairing respE1).pairingToken = ""
      ∧ (pairRewrite cfgPairing respE1).connectorID = respE1.connectorID
      ∧ (pairRewrite cfgPairing respE1).connectorSecret = respE1.secret)
    ∧ ((pairRewrite cfgPairing respE1).moonraker[0]?).map MoonrakerPrinter.printerID
        = some 42 := by
  obtain ⟨hx, h1, h2, h3, h4, h5, h6, h7⟩ :=
    validate_xor_and_pairing cfgPairing respE1 (by decide) (by decide)
  refine ⟨⟨h1, h4, h5⟩, ?_⟩
  rw [h7 0 (by decide) (by decide)]
  rfl

/-! ## Config round-trip theorems -/

/-- Decoding an encoded printer binding restores it. -/
theorem parse_serialize_moonraker (p : MoonrakerPrinter) :
    parseMoonraker (JVal.obj (serializeMoonraker p)) = p := by
  simp [parseMoonraker, serializeMoonraker, jGetStr, jGetInt, List.lookup]

/-- `List.lookup` distributes over append. -/
theorem jlookup_append (l1 l2 : List (String × JVal)) (k : String) :
    (l1 ++ l2).lookup k
      = (match l1.lookup k with
         | some v => some v
         | none => l2.lookup k) := by
  induction l1 with
  | nil => rfl
  | cons kv rest ih =>
    cases kv with
    | mk k1 v1 =>
      rw [List.cons_append]
      by_cases h : k == k1
      · simp [List.lookup, h]
      · simp only [List.lookup, Bool.not_eq_true] at h ⊢
        rw [h, ih]

/-- `List.lookup` commutes with a conditional segment. -/
theorem jlookup_ite (cond : Prop) [Decidable cond] (l1 l2 : List (String × JVal))
    (k : String) :
    ((if cond then l1 else l2).lookup k)
      = (if cond then l1.lookup k else l2.lookup k) := by
  split_ifs <;> rfl

/-- `json.Unmarshal` is a left inverse of `json.Marshal` on configs: every
field, including the `omitempty` ones, decodes back to its original value. -/
theorem deserialize_serialize (c : Config) :
    deserializeConfig (serializeConfig c) = c := by
  have hm : ∀ vs : List MoonrakerPrinter,
      (vs.map (fun p => JVal.obj (serializeMoonraker p))).map parseMoonraker = vs := by
    intro vs
    rw [List.map_map]
    have he : parseMoonraker ∘ (fun p => JVal.obj (serializeMoonraker p)) = id :=
      funext (fun p => parse_serialize_moonraker p)
    rw [he, List.map_id]
  cases c with
  | mk cu pt ci cs sn pcs pss hb sd mr =>
    simp only [deserializeConfig, Config.mk.injEq]
    refine ⟨?_, ?_, ?_, ?_, ?_, ?_, ?_, ?_, ?_, ?_⟩
    · simp [serializeConfig, jGetStr, jlookup_append, jlookup_ite, List.lookup]
    · by_cases h : pt = "" <;>
        simp [serializeConfig, jGetStr, jlookup_append, jlookup_ite, List.lookup, h]
    · by_cases h : ci = "" <;>
        simp [serializeConfig, jGetStr, jlookup_append, jlookup_ite, List.lookup, h]
    · by_cases h : cs = "" <;>
        simp [serializeConfig, jGetStr, jlookup_append, jlookup_ite, List.lookup, h]
    · by_cases h : sn = "" <;>
        simp [serializeConfig, jGetStr, jlookup_append, jlookup_ite, List.lookup, h]
    · by_cases h : pcs = 0 <;>
        simp [serializeConfig, jGetInt, jlookup_append, jlookup_ite, List.lookup, h]
    · by_cases h : pss = 0 <;>
        simp [serializeConfig, jGetInt, jlookup_append, jlookup_ite, List.lookup, h]
    · by_cases h : hb = 0 <;>
        simp [serializeConfig, jGetInt, jlookup_append, jlookup_ite, List.lookup, h]
    · by_cases h : sd = "" <;>
        simp [serializeConfig, jGetStr, jlookup_append, jlookup_ite, List.lookup, h]
    · simp [serializeConfig, jlookup_append, jlookup_ite, List.lookup, hm]

/-- The `Load` defaults do not change a config whose cadence and state-dir
fields are already populated. -/
theorem applyDefaults_id (c : Config) (h1 : 0 < c.pollCommandsSeconds)
    (h2 : 0 < c.pushSnapshotsSeconds) (h3 : 0 < c.heartbeatSeconds)
    (h4 : c.stateDir ≠ "") : applyDefaults c = c := by
  simp only [applyDefaults]
  rw [if_neg (show ¬(c.pollCommandsSeconds ≤ 0) by omega)]
  rw [if_neg (show ¬(c.pushSnapshotsSeconds ≤ 0) by omega)]
  rw [if_neg (show ¬(c.heartbeatSeconds ≤ 0) by omega)]
  rw [if_neg h4]

/-- Claim C7: for a valid config with defaults already substituted (the state
every `Load` result is in), serialize-then-load is the identity: the
`SaveAtomic` → `Load` round trip preserves every key and value, and the
default-substituted fields are stable under a second load; moreover the file
written by `SaveAtomic` loads back to exactly the saved config. -/
theorem config_roundtrip (c : Config) (hv : validate c = Except.ok ())
    (h1 : 0 < c.pollCommandsSeconds) (h2 : 0 < c.pushSnapshotsSeconds)
    (h3 : 0 < c.heartbeatSeconds) (h4 : c.stateDir ≠ "") :
    loadFromJson (serializeConfig c) = c
    ∧ loadFromJson (serializeConfig (loadFromJson (serializeConfig c))) = c
    ∧ (∀ fs : Fs, ∀ path : String,
        (fsRead (saveAtomic fs path c) path).map (fun d => loadFromJson d.content)
          = some c) := by
  have hl : loadFromJson (serializeConfig c) = c := by
    unfold loadFromJson
    rw [deserialize_serialize c]
    exact applyDefaults_id c h1 h2 h3 h4
  refine ⟨hl, by rw [hl, hl], ?_⟩
  intro fs path
  have hsave : fsRead (saveAtomic fs path c) path
      = some ⟨serializeConfig c, 0o600⟩ := by
    unfold saveAtomic fsRename
    rw [show saveAtomicPreRename fs path c
          = fsWrite fs (path ++ ".tmp") ⟨serializeConfig c, 0o600⟩ from rfl,
        fsRead_fsWrite_self fs (path ++ ".tmp") _]
    exact fsRead_fsWrite_self _ path _
  rw [hsave]
  exact congrArg some hl

/-! ## Command executor theorems -/

/-- No action handler ever pushes a snapshot itself: snapshot pushes happen
only in the post-command follow-up. -/
theorem executeAction_no_push (mc : MoonEnv) (env : AgentEnv)
    (stagedFs : List String) (cmd : Command) :
    ∀ s, Effect.pushSnapshots s ∉ (executeAction mc env stagedFs cmd).2.2.1 := by
  intro s
  unfold executeAction executeUploadFile executeDeleteFile executeSyncFiles
    executeCreateBackup
  split
  all_goals try simp
  all_goals (split <;> all_goals try simp)
  all_goals (try (split <;> all_goals try simp))
  all_goals (try (split <;> all_goals try simp))
  all_goals (try (split <;> all_goals try simp))
  all_goals (try (split <;> all_goals try simp))

/-- Claim C2: for every dispatched command whose printer has a controller
client — if the action handler errs, the command is completed with status
`failed`, the handler's error message and the accumulated result fields, and
no snapshot is pushed anywhere in the iteration; if the handler succeeds, a
follow-up query is attempted: on query success a single snapshot for that
printer is pushed before the completion call and `post_snapshot: captured`
joins the result, on query failure `post_snapshot_error` joins the result —
and either way the command is completed with status `succeeded`. -/
theorem command_completion_discipline (env : AgentEnv) (stagedFs : List String)
    (cmd : Command) (mc : MoonEnv)
    (h : mlookup env.moons cmd.printerID = some mc) :
    (∀ msg, (executeAction mc env stagedFs cmd).1 = some msg →
       execOneCommand env stagedFs cmd
         = ((executeAction mc env stagedFs cmd).2.2.1
             ++ [Effect.completeCommand cmd.id
                   ⟨"failed", msg, (executeAction mc env stagedFs cmd).2.1⟩],
            (executeAction mc env stagedFs cmd).2.2.2)
       ∧ (∀ s, Effect.pushSnapshots s ∉ (execOneCommand env stagedFs cmd).1))
    ∧ ((executeAction mc env stagedFs cmd).1 = none →
       (∀ payload, mc.queryObjects = Except.ok payload →
          execOneCommand env stagedFs cmd
            = ((executeAction mc env stagedFs cmd).2.2.1
                ++ [Effect.controllerOp cmd.printerID "query_objects",
                    Effect.pushSnapshots [⟨cmd.printerID, env.now, payload⟩],
                    Effect.completeCommand cmd.id
                      ⟨"succeeded", "",
                       rset (executeAction mc env stagedFs cmd).2.1 "post_snapshot"
                         (JVal.str "captured")⟩],
               (executeAction mc env stagedFs cmd).2.2.2))
       ∧ (∀ qe, mc.queryObjects = Except.error qe →
          execOneCommand env stagedFs cmd
            = ((executeAction mc env stagedFs cmd).2.2.1
                ++ [Effect.controllerOp cmd.printerID "query_objects",
                    Effect.completeCommand cmd.id
                      ⟨"succeeded", "",
                       rset (executeAction mc env stagedFs cmd).2.1 "post_snapshot_error"
                         (JVal.str qe)⟩],
               (executeAction mc env stagedFs cmd).2.2.2))) := by
  constructor
  · intro msg hmsg
    have heq : execOneCommand env stagedFs cmd
        = ((executeAction mc env stagedFs cmd).2.2.1
            ++ [Effect.completeCommand cmd.id
                  ⟨"failed", msg, (executeAction mc env stagedFs cmd).2.1⟩],
           (executeAction mc env stagedFs cmd).2.2.2) := by
      simp only [execOneCommand, h, hmsg]
    refine ⟨heq, ?_⟩
    intro s hs
    rw [heq] at hs
    simp only [List.mem_append, List.mem_singleton] at hs
    rcases hs with hs | hs
    · exact executeAction_no_push mc env stagedFs cmd s hs
    · exact Effect.noConfusion hs
  · intro hok
    constructor
    · intro payload hq
      simp only [execOneCommand, h, hok, hq]
    · intro qe hq
      simp only [execOneCommand, h, hok, hq]

/-- Witness for `command_completion_discipline`: the E2 happy path — a
`pause` command on printer 42 with an all-success controller produces the
pause call, the follow-up query, a single snapshot push, and then the
`succeeded` completion carrying `post_snapshot: captured`. -/
theorem command_completion_discipline_witness :
    execOneCommand envOK [] cmdPause
      = ([Effect.controllerOp 42 "pause",
          Effect.controllerOp 42 "query_objects",
          Effect.pushSnapshots
            [⟨42, "2025-01-01T00:00:00Z", [("print_stats", JVal.null)]⟩],
          Effect.completeCommand "C1"
            ⟨"succeeded", "",
             [("action", JVal.str "pause"),
              ("post_snapshot", JVal.str "captured")]⟩], []) := by
  have h := command_completion_discipline envOK [] cmdPause moonOK rfl
  have h2 := (h.2 rfl).1 [("print_stats", JVal.null)] rfl
  rw [h2]
  rfl

/-- Claim C9: a command whose `printer_id` has no configured controller
client invokes no controller operation, is reported failed with the message
`unknown printer_id <id>`, and the loop continues with the remaining
commands; the completion URL path preserves the command id's textual form,
so the bare numeric id `9` yields `/api/v1/commands/9/complete`. -/
theorem unknown_printer_reported (env : AgentEnv) (stagedFs : List String)
    (cmd : Command) (cs : List Command)
    (h : mlookup env.moons cmd.printerID = none) :
    execOneCommand env stagedFs cmd
      = ([Effect.completeCommand cmd.id
            ⟨"failed", "unknown printer_id " ++ toString cmd.printerID,
             [("printer_id", JVal.num cmd.printerID)]⟩], stagedFs)
    ∧ (∀ p op, Effect.controllerOp p op ∉ (execOneCommand env stagedFs cmd).1)
    ∧ (∀ s, Effect.pushSnapshots s ∉ (execOneCommand env stagedFs cmd).1)
    ∧ runCommands env stagedFs (cmd :: cs)
        = ((execOneCommand env stagedFs cmd).1 ++ (runCommands env stagedFs cs).1,
           (runCommands env stagedFs cs).2)
    ∧ unmarshalStringOrNumber "9" = some "9"
    ∧ completeCommandPath "9" = "/api/v1/commands/9/complete" := by
  have heq : execOneCommand env stagedFs cmd
      = ([Effect.completeCommand cmd.id
            ⟨"failed", "unknown printer_id " ++ toString cmd.printerID,
             [("printer_id", JVal.num cmd.printerID)]⟩], stagedFs) := by
    simp only [execOneCommand, h]
  refine ⟨heq, ?_, ?_, ?_, by decide, by decide⟩
  · intro p op hmem
    rw [heq] at hmem
    simp at hmem
  · intro s hmem
    rw [heq] at hmem
    simp at hmem
  · simp only [runCommands, heq]

/-- Witness for `unknown_printer_reported`: scenario E4 — printer 999 is
unbound, the numeric command id 9 round-trips into the completion path. -/
theorem unknown_printer_reported_witness :
    execOneCommand envOK [] cmdUnknown
      = ([Effect.completeCommand "9"
            ⟨"failed", "unknown printer_id 999",
             [("printer_id", JVal.num 999)]⟩], [])
    ∧ completeCommandPath "9" = "/api/v1/commands/9/complete" := by
  have h := unknown_printer_reported envOK [] cmdUnknown [] rfl
  refine ⟨?_, h.2.2.2.2.2⟩
  rw [h.1]
  rfl

/-! ## Snapshot loop theorems -/

/-- Collection never yields a snapshot from a binding with no client or a
failing query. -/
theorem collectSnaps_all_failed (env : AgentEnv) (bindings : List MoonrakerPrinter)
    (h : ∀ p ∈ bindings, mlookup env.moons p.printerID = none
          ∨ ∃ mc e, mlookup env.moons p.printerID = some mc
              ∧ mc.queryObjects = Except.error e) :
    (collectSnaps env bindings).2 = [] := by
  induction bindings with
  | nil => rfl
  | cons p rest ih =>
    have hr := ih (fun q hq => h q (by simp [hq]))
    rcases h p (by simp) with h1 | ⟨mc, e, h2, h3⟩
    · simp only [collectSnaps, h1]
      exact hr
    · simp only [collectSnaps, h2, h3]
      exact hr

/-- The collection pass emits only controller-query effects, never a push. -/
theorem collectSnaps_no_push (env : AgentEnv) (bindings : List MoonrakerPrinter) :
    ∀ s, Effect.pushSnapshots s ∉ (collectSnaps env bindings).1 := by
  intro s
  induction bindings with
  | nil => simp [collectSnaps]
  | cons p rest ih =>
    unfold collectSnaps
    cases hm : mlookup env.moons p.printerID with
    | none => simpa using ih
    | some mc =>
      cases hq : mc.queryObjects with
      | error e => simp [hq, ih]
      | ok payload => simp [hq, ih]

/-- Claim C10: when every configured binding yields no snapshot (no client,
or the query fails), the snapshot iteration performs no `PushSnapshots` call
at all and still returns success, so the loop resets its backoff instead of
sleeping. -/
theorem empty_snapshot_batch (env : AgentEnv) (bindings : List MoonrakerPrinter)
    (h : ∀ p ∈ bindings, mlookup env.moons p.printerID = none
          ∨ ∃ mc e, mlookup env.moons p.printerID = some mc
              ∧ mc.queryObjects = Except.error e) :
    (collectAndPushSnapshots env bindings).2 = Except.ok ()
    ∧ (∀ s, Effect.pushSnapshots s ∉ (collectAndPushSnapshots env bindings).1)
    ∧ (∀ bo : Backoff, ∀ j : ℚ,
        loopIterBackoff bo (collectAndPushSnapshots env bindings).2 j = bo.reset) := by
  have hempty := collectSnaps_all_failed env bindings h
  have heq : collectAndPushSnapshots env bindings
      = ((collectSnaps env bindings).1, Except.ok ()) := by
    simp only [collectAndPushSnapshots]
    rw [hempty]
    rfl
  refine ⟨by rw [heq], ?_, ?_⟩
  · intro s hs
    rw [heq] at hs
    exact collectSnaps_no_push env bindings s hs
  · intro bo j
    rw [heq]
    rfl

/-- Witness for `empty_snapshot_batch`: scenario where the only binding's
query fails — the iteration succeeds and the backoff is reset. -/
theorem empty_snapshot_batch_witness :
    (collectAndPushSnapshots envSnapFail [bindingK1]).2 = Except.ok ()
    ∧ loopIterBackoff (newBackoff 1 60)
        (collectAndPushSnapshots envSnapFail [bindingK1]).2 1
        = (newBackoff 1 60).reset := by
  have h := empty_snapshot_batch envSnapFail [bindingK1] ?hfail
  case hfail =>
    intro p hp
    simp only [List.mem_singleton] at hp
    subst hp
    exact Or.inr ⟨moonQueryFail, "moonraker http 500: boom", rfl, rfl⟩
  exact ⟨h.1, h.2.2 (newBackoff 1 60) 1⟩

/-! ## Backup staged-file lifecycle theorems -/

/-- Claim C3, counterexample: when archive creation itself fails after the
output file has been created — here one config file exceeds the 10 GiB
ceiling — `executeCreateBackup` returns the wrapped creation error without
removing the staged file, which survives the command: the cleanup `defer` is
registered only after `backup.Create` has succeeded. -/
theorem create_backup_staged_file_leak :
    (executeCreateBackup envLeak [] cmdBackup [("action", JVal.str "create_backup")]).1
      = some ("failed to create backup: failed to archive directory config: "
          ++ "archive size exceeds limit of 10737418240 bytes")
    ∧ (executeCreateBackup envLeak [] cmdBackup
        [("action", JVal.str "create_backup")]).2.2.2
      = ["/var/lib/printer-connector/B1.tar.gz"] := by
  constructor <;> rfl

/-- Claim C3, amended: the staged archive under the state directory is
removed on every termination path of the command except a failed archive
creation — in particular after a successful upload and after a failed
upload; a failure of `backup.Create` itself can leave the partial staged
file behind. -/
theorem create_backup_cleanup (env : AgentEnv) (stagedFs : List String)
    (cmd : Command) (result : Rmap)
    (hout : joinPath env.stateDir (jGetStr cmd.params "backup_id" ++ ".tar.gz")
      ∉ stagedFs)
    (hnc : ∀ msg, (executeCreateBackup env stagedFs cmd result).1
      ≠ some ("failed to create backup: " ++ msg)) :
    joinPath env.stateDir (jGetStr cmd.params "backup_id" ++ ".tar.gz")
      ∉ (executeCreateBackup env stagedFs cmd result).2.2.2 := by
  by_cases h1 : jGetStr cmd.params "backup_id" = ""
  · simpa [executeCreateBackup, h1] using hout
  by_cases h2 : jGetStr cmd.params "presigned_url" = ""
  · simpa [executeCreateBackup, h1, h2] using hout
  by_cases h3 : (!pBool (includeMapOf cmd.params) "config"
      && !pBool (includeMapOf cmd.params) "database"
      && !pBool (includeMapOf cmd.params) "gcodes"
      && !pBool (includeMapOf cmd.params) "logs") = true
  · simpa [executeCreateBackup, h1, h2, h3] using hout
  cases h4 : (backupCreate (env.tree (printerDataRootOf env.home cmd.params))
      (pBool (includeMapOf cmd.params) "config")
      (pBool (includeMapOf cmd.params) "database")
      (pBool (includeMapOf cmd.params) "gcodes")
      (pBool (includeMapOf cmd.params) "logs")
      (printerDataRootOf env.home cmd.params) (10 * 2 ^ 30)).2 with
  | error e =>
    norm_num at h4
    exact absurd (by simp [executeCreateBackup, h1, h2, h3, h4]) (hnc e)
  | ok entries =>
    norm_num at h4
    cases h5 : env.uploadBackup (jGetStr cmd.params "presigned_url") with
    | error e =>
      simp [executeCreateBackup, h1, h2, h3, h4, h5, List.mem_filter]
    | ok u =>
      simp [executeCreateBackup, h1, h2, h3, h4, h5, List.mem_filter]

/-- Witness for `create_backup_cleanup`: the E6 backup scenario — a small
`config/printer.cfg` tree, successful creation and upload; the staged
archive is gone afterwards. -/
theorem create_backup_cleanup_witness :
    joinPath envBackupOK.stateDir (jGetStr cmdBackup.params "backup_id" ++ ".tar.gz")
      ∉ (executeCreateBackup envBackupOK [] cmdBackup
          [("action", JVal.str "create_backup")]).2.2.2 :=
  create_backup_cleanup envBackupOK [] cmdBackup [("action", JVal.str "create_backup")]
    (by simp)
    (by
      intro msg hmsg
      rw [show (executeCreateBackup envBackupOK [] cmdBackup
        [("action", JVal.str "create_backup")]).1 = none from rfl] at hmsg
      exact Option.noConfusion hmsg)

/-! ## Backup filter theorems -/

/-- A successful walk over one directory's files archives exactly the
filter-passing files, in order, under their entry names. -/
theorem walkFiles_ok (maxSize : Nat) (files : List BFile) (total : Nat)
    (es : List String) (t : Nat)
    (h : walkFiles maxSize files total = Except.ok (es, t)) :
    es = (files.filter includeFile).map entryName := by
  induction files generalizing total es t with
  | nil =>
    simp only [walkFiles] at h
    cases h
    rfl
  | cons f rest ih =>
    by_cases hf : includeFile f
    · simp only [walkFiles, hf, if_true] at h
      split at h
      · exact absurd h (by simp)
      · cases hrec : walkFiles maxSize rest (total + f.size) with
        | error e => rw [hrec] at h; exact absurd h (by simp)
        | ok p =>
          rw [hrec] at h
          cases h
          rw [List.filter_cons_of_pos (by simpa using hf), List.map_cons]
          exact congrArg _ (ih (total + f.size) p.1 p.2 (by rw [hrec]))
    · simp only [walkFiles, hf, if_false] at h
      rw [List.filter_cons_of_neg (by simpa using hf)]
      exact ih total es t h

/-- A successful walk over the selected directories archives the
concatenation of each directory's filter-passing files. -/
theorem walkDirs_ok (tree : List BFile) (maxSize : Nat) (dirs : List String)
    (total : Nat) (es : List String) (t : Nat)
    (h : walkDirs tree maxSize dirs total = Except.ok (es, t)) :
    es = dirs.flatMap (fun d =>
      ((tree.filter (fun f => f.path.head? = some d)).filter includeFile).map
        entryName) := by
  induction dirs generalizing total es t with
  | nil =>
    simp only [walkDirs] at h
    cases h
    rfl
  | cons d ds ih =>
    simp only [walkDirs] at h
    cases h1 : walkFiles maxSize (tree.filter (fun f => f.path.head? = some d)) total with
    | error e => rw [h1] at h; exact absurd h (by simp)
    | ok p1 =>
      simp only [h1] at h
      cases h2 : walkDirs tree maxSize ds p1.2 with
      | error e =>
        simp only [h2] at h
        exact absurd h (by simp)
      | ok p2 =>
        simp only [h2] at h
        have h3 : p1.1 ++ p2.1 = es := congrArg Prod.fst (Except.ok.inj h)
        rw [List.flatMap_cons, ← h3,
          walkFiles_ok maxSize _ total p1.1 p1.2 (by rw [h1]),
          ih p1.2 p2.1 p2.2 (by rw [h2])]

/-- Claim C8: a successfully produced archive contains exactly the regular
files of the selected directories that pass the filter — not under a
`Helper-Script` directory, name ending in `.cfg`, and not a
`printer-*_*.cfg` variant other than the literal `printer.cfg` — in walk
order; every entry is named by the file's root-relative path joined with
forward slashes, and (for well-formed walked paths) no entry escapes the
declared root. -/
theorem backup_filter_exact (tree : List BFile) (ic idb ig il : Bool)
    (root : String) (maxSize : Nat) (entries : List String) (total : Nat)
    (hwf : ∀ f ∈ tree, validRelPath f.path = true)
    (hok : (backupCreate (some tree) ic idb ig il root maxSize).2
      = Except.ok (entries, total)) :
    entries = (selectedDirs ic idb ig il).flatMap (fun d =>
      ((tree.filter (fun f => f.path.head? = some d)).filter includeFile).map
        entryName)
    ∧ (∀ e ∈ entries, ∃ f, f ∈ tree ∧ includeFile f = true
        ∧ validRelPath f.path = true ∧ e = String.intercalate "/" f.path) := by
  by_cases hroot : root = ""
  · simp [backupCreate, hroot] at hok
  by_cases hdirs : selectedDirs ic idb ig il = []
  · rw [show (backupCreate (some tree) ic idb ig il root maxSize).2
        = Except.error "no directories selected for backup" by
      simp [backupCreate, hroot, hdirs]] at hok
    exact absurd hok (by simp)
  have hwalk : walkDirs tree maxSize (selectedDirs ic idb ig il) 0
      = Except.ok (entries, total) := by
    rw [show (backupCreate (some tree) ic idb ig il root maxSize).2
        = walkDirs tree maxSize (selectedDirs ic idb ig il) 0 by
      simp [backupCreate, hroot, hdirs]] at hok
    exact hok
  have ha := walkDirs_ok tree maxSize _ 0 entries total hwalk
  refine ⟨ha, ?_⟩
  intro e he
  rw [ha] at he
  simp only [List.mem_flatMap, List.mem_map, List.mem_filter] at he
  obtain ⟨d, hd, f, ⟨⟨hf, hhead⟩, hinc⟩, hname⟩ := he
  exact ⟨f, hf, hinc, hwf f hf, by rw [← hname]; rfl⟩

/-- Witness for `backup_filter_exact`: the E6 tree — only
`config/printer.cfg` is archived; the variant and the `Helper-Script` file
are excluded. -/
theorem backup_filter_exact_witness :
    ["config/printer.cfg"]
      = (selectedDirs true false false false).flatMap (fun d =>
          ((treeE6.filter (fun f => f.path.head? = some d)).filter includeFile).map
            entryName) :=
  (backup_filter_exact treeE6 true false false false "/usr/data/printer_data" 0
    ["config/printer.cfg"] 50 (by decide) (by rfl)).1

/-- Witness for `config_roundtrip` at the steady-state config of scenario
E1 after pairing. -/
theorem config_roundtrip_witness :
    loadFromJson (serializeConfig cfgSteady) = cfgSteady
    ∧ loadFromJson (serializeConfig (loadFromJson (serializeConfig cfgSteady)))
        = cfgSteady :=
  ⟨(config_roundtrip cfgSteady (by rfl) (by decide) (by decide) (by decide)
      (by decide)).1,
   (config_roundtrip cfgSteady (by rfl) (by decide) (by decide) (by decide)
      (by decide)).2.1⟩



end PrinterConnector
